import Mathlib

/-!
Verification of the ENS-playground lookup orchestrator and graph-input parser.

The definitions below are a shallow embedding of the application component
(`src/unnamed/part_001`): the graph parser `parseGraphInput` (source lines
278-311) and the lookup orchestrator `doLookup` (source lines 49-276).
External collaborators (the JSON-RPC provider, the resolver object and the
HTTP transaction endpoint) are modelled by an environment record whose
entries give, for the one input of a lookup, the value each call returns or
the exception it throws.
-/

namespace EnsPlayground

/-- Whitespace characters stripped by the JS `String.prototype.trim` calls at
source line 286 (the common ASCII whitespace plus no-break space; JS also
strips the rarer Unicode space separators, which never appear in the claims). -/
def isJsSpace (c : Char) : Bool :=
  c == ' ' || c == '\t' || c == '\n' || c == '\r' || c == '\x0b' || c == '\x0c' || c == ' '

/-- Model of JS `String.prototype.trim` on a character list. -/
def jsTrim (l : List Char) : String :=
  String.mk (((l.dropWhile isJsSpace).reverse.dropWhile isJsSpace).reverse)

/-- Splits a character list at the first occurrence of `c`: returns the
(possibly empty) run before the first `c` and the remainder after it, or
`none` when `c` does not occur. -/
def splitAtChar (c : Char) : List Char → Option (List Char × List Char)
  | [] => none
  | x :: xs =>
    if x == c then some ([], xs)
    else
      match splitAtChar c xs with
      | some (p, r) => some (x :: p, r)
      | none => none

/-- One match attempt of the regex `/\(([^,]+),([^)]+)\)/` (source line 281)
at the head of the list.  At an opening parenthesis, `[^,]+` greedily matches
the run up to the first comma (backtracking cannot produce anything else,
since the run contains no other comma for the literal `,` to match), and
`[^)]+` matches the run up to the first close-parenthesis after that comma;
either run being empty makes the match fail.  On success, returns the two
captured tokens trimmed (source line 286) and the remainder of the input
after the consumed substring. -/
def matchPairSrc (l : List Char) : Option ((String × String) × List Char) :=
  match l with
  | [] => none
  | c :: rest =>
    if c == '(' then
      match splitAtChar ',' rest with
      | some (t1, r2) =>
        if t1.isEmpty then none
        else
          match splitAtChar ')' r2 with
          | some (t2, r3) =>
            if t2.isEmpty then none
            else some ((jsTrim t1, jsTrim t2), r3)
          | none => none
      | none => none
    else none

/-- The repeated-`exec` loop of source lines 283-287: the regex engine finds
the leftmost match at or after the current position (equivalently, attempts a
match at each successive position), and after a successful match resumes past
the consumed substring (non-overlapping, left to right).  The fuel argument
is the length of the scanned list, which strictly bounds the recursion. -/
def scanPairsFuel : Nat → List Char → List (String × String)
  | 0, _ => []
  | _, [] => []
  | fuel + 1, c :: rest =>
    match matchPairSrc (c :: rest) with
    | some (p, r3) => p :: scanPairsFuel fuel r3
    | none => scanPairsFuel fuel rest

/-- The matched pairs of `parseGraphInput` (source lines 281-287). -/
def scanPairs (s : String) : List (String × String) :=
  scanPairsFuel s.data.length s.data

/-- Single leftmost-match attempt written after the spec's wording (amended):
`token1` is a run of non-comma characters terminated by the first comma and
`token2` a run of non-close-parenthesis characters terminated by the first
close parenthesis, both trimmed. -/
def matchPairSpec : List Char → Option ((String × String) × List Char)
  | [] => none
  | c :: rest =>
    if c == '(' then
      let t1 := rest.takeWhile (fun x => x != ',')
      match rest.dropWhile (fun x => x != ',') with
      | [] => none
      | d :: r2 =>
        if d == ',' then
          if t1.isEmpty then none
          else
            let t2 := r2.takeWhile (fun x => x != ')')
            match r2.dropWhile (fun x => x != ')') with
            | [] => none
            | d2 :: r3 =>
              if d2 == ')' then
                if t2.isEmpty then none else some ((jsTrim t1, jsTrim t2), r3)
              else none
        else none
    else none

/-- Left-to-right non-overlapping scan driven by `matchPairSpec`. -/
def specScanFuel : Nat → List Char → List (String × String)
  | 0, _ => []
  | _, [] => []
  | fuel + 1, c :: rest =>
    match matchPairSpec (c :: rest) with
    | some (p, r3) => p :: specScanFuel fuel r3
    | none => specScanFuel fuel rest

/-- Spec-side statement of the scan (amended token grammar). -/
def specScanPairs (s : String) : List (String × String) :=
  specScanFuel s.data.length s.data

/-- Single match attempt under claim C2's stated grammar, where BOTH tokens
may contain neither a comma nor a close parenthesis. -/
def matchPairClaim : List Char → Option ((String × String) × List Char)
  | [] => none
  | c :: rest =>
    if c == '(' then
      let t1 := rest.takeWhile (fun x => x != ',' && x != ')')
      match rest.dropWhile (fun x => x != ',' && x != ')') with
      | [] => none
      | d :: r2 =>
        if d == ',' then
          if t1.isEmpty then none
          else
            let t2 := r2.takeWhile (fun x => x != ',' && x != ')')
            match r2.dropWhile (fun x => x != ',' && x != ')') with
            | [] => none
            | d2 :: r3 =>
              if d2 == ')' then
                if t2.isEmpty then none else some ((jsTrim t1, jsTrim t2), r3)
              else none
        else none
    else none

/-- Left-to-right non-overlapping scan under claim C2's stated grammar. -/
def claimScanFuel : Nat → List Char → List (String × String)
  | 0, _ => []
  | _, [] => []
  | fuel + 1, c :: rest =>
    match matchPairClaim (c :: rest) with
    | some (p, r3) => p :: claimScanFuel fuel r3
    | none => claimScanFuel fuel rest

/-- The pair list that claim C2, read literally, says the parser produces. -/
def claimC2Pairs (s : String) : List (String × String) :=
  claimScanFuel s.data.length s.data

/-- Node record produced by the parser (react-digraph `INode`; the source
field named `type` is rendered `ntype` here since `type` is a Lean keyword). -/
structure GraphNode where
  id : String
  title : String
  ntype : String
  x : Nat
  y : Nat
  deriving DecidableEq, Repr

/-- Edge record produced by the parser (react-digraph `IEdge`; source field
`type` rendered `etype`). -/
structure GraphEdge where
  source : String
  target : String
  etype : String
  deriving DecidableEq, Repr

/-- The node constructor of source lines 296-302. -/
def mkNode (idx : Nat) (name : String) : GraphNode :=
  { id := name, title := name, ntype := "empty",
    x := (idx % 5) * 200 + 100, y := (idx / 5) * 150 + 100 }

/-- `Array.from(nodeSet).map((name, idx) => ...)` of source lines 296-302,
with the running index made explicit. -/
def buildNodes : Nat → List String → List GraphNode
  | _, [] => []
  | i, t :: ts => mkNode i t :: buildNodes (i + 1) ts

/-- JS `Set.add`: insertion-ordered, deduplicated by exact string equality. -/
def insertNode (acc : List String) (t : String) : List String :=
  if t ∈ acc then acc else acc ++ [t]

/-- Result record of `parseGraphInput`. -/
structure GraphResult where
  nodes : List GraphNode
  edges : List GraphEdge
  deriving DecidableEq, Repr

/-- The graph parser of source lines 278-311. -/
def parseGraphInput (input : String) : GraphResult :=
  let pairs := scanPairs input
  let nodeNames := pairs.foldl (fun acc p => insertNode (insertNode acc p.1) p.2) []
  { nodes := buildNodes 0 nodeNames,
    edges := pairs.map (fun p => { source := p.1, target := p.2, etype := "emptyEdge" }) }

/-- The token stream of a pair list: for each pair, first element then second. -/
def tokensOf (pairs : List (String × String)) : List String :=
  pairs.foldr (fun p acc => p.1 :: p.2 :: acc) []

/-- Spec-side first-seen-order deduplication of a token stream. -/
def firstSeenDedup (tokens : List String) : List String :=
  tokens.foldl insertNode []

/-- Log severity (source line 8). -/
inductive Level where
  | info
  | error
  deriving DecidableEq, Repr

/-- A log entry (source lines 6-10).  The wall-clock `time` field is not
modelled; the claims speak only of level and text. -/
structure LogEntry where
  level : Level
  text : String
  deriving DecidableEq, Repr

/-- The profile accumulator (source lines 25-34); every field is optional. -/
structure Profile where
  name : Option String := none
  avatar : Option String := none
  description : Option String := none
  url : Option String := none
  address : Option String := none
  resolver : Option String := none
  reverse : Option String := none
  balance : Option String := none
  deriving DecidableEq, Repr

/-- A mapped transaction (source lines 12-19; the source fields `from` and
`to` are rendered `fromAddr` and `toAddr`, both being Lean keywords).  JS
`parseInt` yields `NaN` on digit-free input, modelled by `none`. -/
structure Transaction where
  hash : String
  fromAddr : String
  toAddr : Option String
  value : String
  blockNumber : Option Int
  timestamp : Option Int
  deriving DecidableEq, Repr

/-- A raw Etherscan transaction record as consumed by the mapping at source
lines 251-258.  The JSON `value` field is a base-unit (wei) decimal integer
string, modelled by the integer it denotes; `blockNumber` and `timeStamp`
stay strings because the code parses them with `parseInt`. -/
structure RawTx where
  hash : String
  fromAddr : String
  toAddr : Option String
  value : Nat
  blockNumber : String
  timeStamp : String
  deriving DecidableEq, Repr

/-- The decoded Etherscan JSON envelope (source lines 248-263): `status`,
`result` (`some` when the field is a JS array, `none` when it is missing or
not an array), `message`. -/
structure TxResponse where
  status : String
  result : Option (List RawTx)
  message : Option String
  deriving DecidableEq, Repr

/-- The resolver object returned by `provider.getResolver` (source lines
124-236): its address, which optional capabilities exist, and what each call
returns or throws for this lookup. -/
structure Resolver where
  address : Option String
  hasGetContentHash : Bool
  getContentHash : Except String String
  getText : String → Except String (Option String)
  hasGetAddress : Bool
  getAddressNoArg : Except String String
  getAddressCoin : Nat → Except String String
  hasAddr : Bool
  addr : Except String String

/-- The external collaborators for one lookup input (the ethers library, the
JSON-RPC provider and the Etherscan HTTP endpoint); each call is modelled as
the value it returns or the exception it throws for this lookup's input. -/
structure Env where
  isAddress : Except String Bool
  resolveName : Except String (Option String)
  namehash : Except String String
  getBalance : Except String Nat
  getCode : Except String String
  getTransactionCount : Except String Nat
  lookupAddress : Except String (Option String)
  getResolver : Except String (Option Resolver)
  fetchTx : Except String TxResponse

/-- Trace marker for each external call the orchestrator makes. -/
inductive ExtCall where
  | isAddressCall
  | resolveNameCall
  | namehashCall
  | getBalanceCall
  | getCodeCall
  | getTransactionCountCall
  | lookupAddressCall
  | getResolverCall
  | getContentHashCall
  | getTextCall (key : String)
  | resolverGetAddressCall (coin : Option Nat)
  | resolverAddrCall
  | fetchTxCall
  deriving DecidableEq, Repr

/-- The React state touched by `doLookup` (source lines 24-40): the log list
(newest first), the profile, the transaction list, the in-progress flag and
the modal flag. -/
structure AppState where
  logs : List LogEntry
  profile : Option Profile
  transactions : List Transaction
  loading : Bool
  showModal : Bool
  deriving DecidableEq, Repr

/-- `addLog` (source lines 42-47): prepends an entry (newest first). -/
def addLog (lv : Level) (t : String) (s : AppState) : AppState :=
  { s with logs := { level := lv, text := t } :: s.logs }

/-- A `setProfile((p) => ({ ...(p ?? {}), ... }))` update (used throughout
the orchestrator): merge field updates into the current profile, starting
from the empty profile when it is null. -/
def mergeProfile (f : Profile → Profile) (s : AppState) : AppState :=
  { s with profile := some (f (s.profile.getD {})) }

/-- JS `String(x)` on a string-or-null value. -/
def jsString : Option String → String
  | none => "null"
  | some t => t

/-- JS truthiness of a string-or-null value: null and "" are falsy. -/
def jsTruthy : Option String → Bool
  | none => false
  | some t => t != ""

/-- `data.message || 'Unknown error'` (source line 263). -/
def jsOrUnknown : Option String → String
  | none => "Unknown error"
  | some m => if m != "" then m else "Unknown error"

/-- ethers `formatEther` on a wei amount: decimal ETH string with at least
one fractional digit and trailing fractional zeros trimmed. -/
def formatEther (wei : Nat) : String :=
  let intPart := wei / 10 ^ 18
  let frac := wei % 10 ^ 18
  let fracDigits := Nat.toDigits 10 frac
  let padded := List.replicate (18 - fracDigits.length) '0' ++ fracDigits
  let trimmed := (padded.reverse.dropWhile (fun c => c == '0')).reverse
  toString intPart ++ "." ++ (if trimmed.isEmpty then "0" else String.mk trimmed)

/-- Digit run to number. -/
def digitsToNat (ds : List Char) : Nat :=
  ds.foldl (fun acc c => acc * 10 + (c.toNat - 48)) 0

/-- JS `parseInt` on a base-10 string: skip leading whitespace, optional
sign, longest digit prefix; `none` models `NaN`. -/
def jsParseInt (s : String) : Option Int :=
  let l := s.data.dropWhile isJsSpace
  match l with
  | '-' :: rest =>
    let ds := rest.takeWhile Char.isDigit
    if ds.isEmpty then none else some (-(digitsToNat ds : Int))
  | '+' :: rest =>
    let ds := rest.takeWhile Char.isDigit
    if ds.isEmpty then none else some ((digitsToNat ds : Int))
  | _ =>
    let ds := l.takeWhile Char.isDigit
    if ds.isEmpty then none else some ((digitsToNat ds : Int))

/-- JS `String.prototype.startsWith`. -/
def jsStartsWith (v p : String) : Bool :=
  p.data.isPrefixOf v.data

/-- Avatar normalization of source lines 181-184: under the `startsWith`
guard, JS `replace('ipfs://', 'https://ipfs.io/ipfs/')` replaces the first
occurrence of `ipfs://`, which is the 7-character prefix itself. -/
def normalizeAvatar (v : String) : String :=
  if jsStartsWith v "ipfs://" then "https://ipfs.io/ipfs/" ++ String.mk (v.data.drop 7)
  else v

/-- The raw-record-to-Transaction mapping of source lines 251-258. -/
def mkTransaction (tx : RawTx) : Transaction :=
  { hash := tx.hash, fromAddr := tx.fromAddr, toAddr := tx.toAddr,
    value := formatEther tx.value,
    blockNumber := jsParseInt tx.blockNumber,
    timestamp := jsParseInt tx.timeStamp }

/-- Composition of two orchestration steps: thread the state, concatenate
the call traces. -/
def seqStep (f g : AppState → AppState × List ExtCall) (s : AppState) :
    AppState × List ExtCall :=
  ((g (f s).1).1, (f s).2 ++ (g (f s).1).2)

/-- Source lines 90-98: balance fetch; on success merge address and balance
into the profile. -/
def stepBalance (env : Env) (addr : String) (s : AppState) : AppState × List ExtCall :=
  match env.getBalance with
  | .ok bal =>
    let balStr := formatEther bal ++ " ETH"
    (mergeProfile (fun p => { p with address := some addr, balance := some balStr })
      (addLog .info ("balance: " ++ balStr) s), [.getBalanceCall])
  | .error e => (addLog .error ("getBalance failed: " ++ e) s, [.getBalanceCall])

/-- Source lines 100-105: bytecode length, logging only. -/
def stepCode (env : Env) (s : AppState) : AppState × List ExtCall :=
  match env.getCode with
  | .ok code =>
    (addLog .info ("code length: " ++ toString (if code = "" then 0 else code.length)) s,
      [.getCodeCall])
  | .error e => (addLog .error ("getCode failed: " ++ e) s, [.getCodeCall])

/-- Source lines 107-112: outgoing transaction count, logging only. -/
def stepTxCount (env : Env) (s : AppState) : AppState × List ExtCall :=
  match env.getTransactionCount with
  | .ok n =>
    (addLog .info ("transactionCount: " ++ toString n) s, [.getTransactionCountCall])
  | .error e =>
    (addLog .error ("getTransactionCount failed: " ++ e) s, [.getTransactionCountCall])

/-- Source lines 114-121: reverse lookup; merge a truthy result into the
profile. -/
def stepReverse (env : Env) (s : AppState) : AppState × List ExtCall :=
  match env.lookupAddress with
  | .ok rev =>
    let s1 := addLog .info ("reverse name: " ++ jsString rev) s
    (if jsTruthy rev then mergeProfile (fun p => { p with reverse := rev }) s1 else s1,
      [.lookupAddressCall])
  | .error e => (addLog .error ("lookupAddress failed: " ++ e) s, [.lookupAddressCall])

/-- Source lines 140-151: content-hash, logging only; the capability check
logs informationally when absent. -/
def stepContentHash (r : Resolver) (s : AppState) : AppState × List ExtCall :=
  if r.hasGetContentHash then
    match r.getContentHash with
    | .ok ch => (addLog .info ("contentHash: " ++ ch) s, [.getContentHashCall])
    | .error e => (addLog .error ("getContentHash failed: " ++ e) s, [.getContentHashCall])
  else (addLog .info "getContentHash not available on resolver" s, [])

/-- Source lines 156-164: text record "name"; falsy or failing results are
silently skipped. -/
def stepTextName (r : Resolver) (s : AppState) : AppState × List ExtCall :=
  match r.getText "name" with
  | .ok v =>
    (if jsTruthy v then
      mergeProfile (fun p => { p with name := v })
        (addLog .info ("profile.name = " ++ jsString v) s)
    else s, [.getTextCall "name"])
  | .error _ => (s, [.getTextCall "name"])

/-- Source lines 166-175: text record "url"; falsy or failing results are
silently skipped. -/
def stepTextUrl (r : Resolver) (s : AppState) : AppState × List ExtCall :=
  match r.getText "url" with
  | .ok v =>
    (if jsTruthy v then
      mergeProfile (fun p => { p with url := v })
        (addLog .info ("profile.url = " ++ jsString v) s)
    else s, [.getTextCall "url"])
  | .error _ => (s, [.getTextCall "url"])

/-- Source lines 177-191: text record "avatar" with `ipfs://` rewriting;
falsy or failing results are silently skipped. -/
def stepTextAvatar (r : Resolver) (s : AppState) : AppState × List ExtCall :=
  match r.getText "avatar" with
  | .ok v =>
    (if jsTruthy v then
      let avatarUrl := normalizeAvatar (jsString v)
      mergeProfile (fun p => { p with avatar := some avatarUrl })
        (addLog .info ("profile.avatar = " ++ avatarUrl) s)
    else s, [.getTextCall "avatar"])
  | .error _ => (s, [.getTextCall "avatar"])

/-- Source lines 193-202: text record "description"; falsy or failing
results are silently skipped. -/
def stepTextDesc (r : Resolver) (s : AppState) : AppState × List ExtCall :=
  match r.getText "description" with
  | .ok v =>
    (if jsTruthy v then
      mergeProfile (fun p => { p with description := v })
        (addLog .info ("profile.description = " ++ jsString v) s)
    else s, [.getTextCall "description"])
  | .error _ => (s, [.getTextCall "description"])

/-- Source lines 207-220: resolver ETH-address lookup, logging only,
preferring the zero-argument form. -/
def stepResolverAddr (r : Resolver) (s : AppState) : AppState × List ExtCall :=
  if r.hasGetAddress then
    match r.getAddressNoArg with
    | .ok a =>
      (addLog .info ("resolver.getAddress() => " ++ a) s, [.resolverGetAddressCall none])
    | .error e =>
      (addLog .error ("resolver address lookup failed: " ++ e) s,
        [.resolverGetAddressCall none])
  else if r.hasAddr then
    match r.addr with
    | .ok a => (addLog .info ("resolver.addr(60) => " ++ a) s, [.resolverAddrCall])
    | .error e =>
      (addLog .error ("resolver address lookup failed: " ++ e) s, [.resolverAddrCall])
  else (addLog .info "resolver address lookup API not available" s, [])

/-- One iteration of the coin loop at source lines 223-233. -/
def coinStep (r : Resolver) (coin : Nat) (s : AppState) : AppState × List ExtCall :=
  if r.hasGetAddress then
    match r.getAddressCoin coin with
    | .ok a =>
      (addLog .info ("resolver.getAddress(" ++ toString coin ++ ") => " ++ a) s,
        [.resolverGetAddressCall (some coin)])
    | .error e =>
      (addLog .error ("resolver.getAddress(" ++ toString coin ++ ") failed: " ++ e) s,
        [.resolverGetAddressCall (some coin)])
  else (s, [])

/-- The coin loop over coin types 60 and 61 (source lines 222-233). -/
def stepCoinLoop (r : Resolver) : AppState → AppState × List ExtCall :=
  seqStep (coinStep r 60) (coinStep r 61)

/-- The resolver-dependent block of source lines 137-236. -/
def resolverSteps (r : Resolver) : AppState → AppState × List ExtCall :=
  seqStep (stepContentHash r)
    (seqStep (stepTextName r)
      (seqStep (stepTextUrl r)
        (seqStep (stepTextAvatar r)
          (seqStep (stepTextDesc r)
            (seqStep (stepResolverAddr r) (stepCoinLoop r))))))

/-- Source lines 123-236: resolver acquisition and, when a resolver is
present, its address merge and the resolver-dependent block. -/
def stepResolverPhase (env : Env) (name : String) (s : AppState) : AppState × List ExtCall :=
  match env.getResolver with
  | .error e => (addLog .error ("getResolver failed: " ++ e) s, [.getResolverCall])
  | .ok none => (addLog .info ("No resolver found for " ++ name) s, [.getResolverCall])
  | .ok (some r) =>
    let s2 := mergeProfile (fun p => { p with resolver := r.address })
      (addLog .info ("resolver address: " ++ r.address.getD "unknown") s)
    ((resolverSteps r s2).1, .getResolverCall :: (resolverSteps r s2).2)

/-- The "no transactions" outcome at source lines 262-264. -/
def noTxState (data : TxResponse) (s : AppState) : AppState :=
  { addLog .info ("No transactions found or Etherscan API error: " ++ jsOrUnknown data.message) s
      with transactions := [] }

/-- Source lines 238-270: Etherscan transaction-history fetch.  The
`if (resolvedAddress)` truthiness guard re-checks that the address string is
non-empty. -/
def stepFetchTx (env : Env) (addr : String) (s : AppState) : AppState × List ExtCall :=
  if addr != "" then
    let s1 := addLog .info "Fetching recent transactions from Etherscan..." s
    match env.fetchTx with
    | .ok data =>
      if data.status == "1" then
        match data.result with
        | some txs =>
          let mapped := txs.map mkTransaction
          (addLog .info ("Found " ++ toString mapped.length ++ " recent transactions")
            { s1 with transactions := mapped }, [.fetchTxCall])
        | none => (noTxState data s1, [.fetchTxCall])
      else (noTxState data s1, [.fetchTxCall])
    | .error e =>
      ({ addLog .error ("Failed to fetch transaction history: " ++ e) s1
          with transactions := [] }, [.fetchTxCall])
  else (s, [])

/-- Output of the input classification at source lines 60-73. -/
structure ClassifyOut where
  resolved : Option String
  state : AppState
  calls : List ExtCall

/-- Source lines 60-73: address-format check; otherwise attempt ENS name
resolution, logging an error and leaving the address unset on failure. -/
def classifyInput (env : Env) (name : String) (isAddr : Bool) (s : AppState) : ClassifyOut :=
  if isAddr then
    { resolved := some name, state := addLog .info ("Input is an address: " ++ name) s,
      calls := [.isAddressCall] }
  else
    match env.resolveName with
    | .ok r =>
      { resolved := r, state := addLog .info ("Resolved address: " ++ jsString r) s,
        calls := [.isAddressCall, .resolveNameCall] }
    | .error e =>
      { resolved := none, state := addLog .error ("resolveName failed: " ++ e) s,
        calls := [.isAddressCall, .resolveNameCall] }

/-- Source lines 75-81: namehash logging; failures swallowed silently. -/
def stepNamehash (env : Env) (s : AppState) : AppState :=
  match env.namehash with
  | .ok nh => addLog .info ("namehash: " ++ nh) s
  | .error _ => s

/-- Source lines 83-87: short-circuit when no address was resolved (JS
truthiness: null and "" both fail the check). -/
def shortCircuit (name : String) (s : AppState) : AppState :=
  { addLog .error ("No address available for " ++ name) s with profile := none }

/-- The resolved-address pipeline, source lines 89-270. -/
def runResolved (env : Env) (name addr : String) : AppState → AppState × List ExtCall :=
  seqStep (stepBalance env addr)
    (seqStep (stepCode env)
      (seqStep (stepTxCount env)
        (seqStep (stepReverse env)
          (seqStep (stepResolverPhase env name)
            (stepFetchTx env addr)))))

/-- The body of the outer `try` (source lines 56-270).  The only call that
sits directly in the outer `try` without an inner handler is the
`ethers.isAddress` classification; a throw there escapes to the outer
`catch` of source lines 271-272, modelled by the `.error` branch below. -/
def doLookupRun (env : Env) (name : String) (s : AppState) : AppState × List ExtCall :=
  match env.isAddress with
  | .error e => (addLog .error ("Lookup failed: " ++ e) s, [.isAddressCall])
  | .ok isAddr =>
    let c := classifyInput env name isAddr s
    let s2 := stepNamehash env c.state
    match c.resolved with
    | none => (shortCircuit name s2, c.calls ++ [.namehashCall])
    | some addr =>
      if addr = "" then (shortCircuit name s2, c.calls ++ [.namehashCall])
      else
        ((runResolved env name addr s2).1,
          (c.calls ++ [.namehashCall]) ++ (runResolved env name addr s2).2)

/-- `doLookup` (source lines 49-276) with an explicit call trace: empty
input is a no-op before any state change; otherwise set the in-progress
flag, clear profile and transactions, open the modal, log the opening line,
run the body under the outer catch, and in the `finally` clear the
in-progress flag as the last action. -/
def doLookupTr (env : Env) (name : String) (s : AppState) : AppState × List ExtCall :=
  if name = "" then (s, [])
  else
    let s0 : AppState :=
      { s with loading := true, profile := none, transactions := [], showModal := true }
    let s1 := addLog .info ("Resolving ENS name: " ++ name) s0
    (({ (doLookupRun env name s1).1 with loading := false }), (doLookupRun env name s1).2)

/-- The state transformer of `doLookup`. -/
def doLookup (env : Env) (name : String) (s : AppState) : AppState :=
  (doLookupTr env name s).1

/-- The avatar field of the (possibly null) profile. -/
def avatarOf (s : AppState) : Option String :=
  (s.profile.getD {}).avatar

/-- The description field of the (possibly null) profile. -/
def descOf (s : AppState) : Option String :=
  (s.profile.getD {}).description

/-- A text-record fetch outcome that the code skips silently: a throw, a
null result, or an empty string (JS falsy). -/
def silentOutcome (res : Except String (Option String)) : Bool :=
  match res with
  | .ok v => !(jsTruthy v)
  | .error _ => true

/-- The state right before the resolved-address pipeline on the
address-classified path of `doLookup`. -/
def preResolved (env : Env) (name : String) (s : AppState) : AppState :=
  stepNamehash env (addLog .info ("Input is an address: " ++ name)
    (addLog .info ("Resolving ENS name: " ++ name)
      { s with loading := true, profile := none, transactions := [], showModal := true }))

/-- Resolver fixture: text record "description" present, text record
"avatar" throwing, every other capability absent or failing. -/
def testResolver : Resolver :=
  { address := some "0xresolver",
    hasGetContentHash := false,
    getContentHash := .error "no contentHash",
    getText := fun k =>
      if k = "description" then .ok (some "a description")
      else if k = "avatar" then .error "avatar fetch failed"
      else .ok none,
    hasGetAddress := false,
    getAddressNoArg := .error "unavailable",
    getAddressCoin := fun _ => .error "unavailable",
    hasAddr := false,
    addr := .error "unavailable" }

/-- Resolver fixture whose avatar text record is an `ipfs://` URI. -/
def testResolverAvatar : Resolver :=
  { testResolver with
    getText := fun k => if k = "avatar" then .ok (some "ipfs://Qm123") else .ok none }

/-- Environment fixture: address-formatted input with a resolver. -/
def testEnv : Env :=
  { isAddress := .ok true,
    resolveName := .ok none,
    namehash := .ok "0xdeadbeef",
    getBalance := .ok 1500000000000000000,
    getCode := .ok "0x",
    getTransactionCount := .ok 0,
    lookupAddress := .ok none,
    getResolver := .ok (some testResolver),
    fetchTx := .ok { status := "1", result := some [], message := none } }

/-- Environment fixture with the `ipfs://` avatar resolver. -/
def testEnvAvatar : Env :=
  { testEnv with getResolver := .ok (some testResolverAvatar) }

/-- Environment fixture: name input that resolves to no address. -/
def testEnvNoAddr : Env :=
  { testEnv with isAddress := .ok false, resolveName := .ok none }

/-- Environment fixture: the classification call itself throws. -/
def testEnvThrow : Env :=
  { testEnv with isAddress := .error "boom" }

/-- Fresh UI state. -/
def initState : AppState :=
  { logs := [], profile := none, transactions := [], loading := false, showModal := false }

/-- A leftover transaction from a previous lookup. -/
def staleTx : Transaction :=
  { hash := "0xh", fromAddr := "0xf", toAddr := none,
    value := "1.0", blockNumber := some 1, timestamp := none }

/-- A state still carrying transactions from a previous lookup. -/
def dirtyState : AppState :=
  { initState with transactions := [staleTx] }

/-- The head of a non-empty `dropWhile` result falsifies the predicate. -/
theorem dropWhile_head_not {α : Type} (p : α → Bool) :
    ∀ (l : List α) (d : α) (r : List α), l.dropWhile p = d :: r → p d = false := by
  intro l
  induction l with
  | nil => intro d r h; simp [List.dropWhile] at h
  | cons x xs ih =>
    intro d r h
    by_cases hp : p x
    · rw [List.dropWhile_cons_of_pos hp] at h
      exact ih d r h
    · rw [List.dropWhile_cons_of_neg hp] at h
      cases h
      simpa using hp

/-- `splitAtChar` splits into the maximal run not containing `c` and the
remainder after the first `c`. -/
theorem splitAtChar_eq_dropWhile (c : Char) (l : List Char) :
    splitAtChar c l =
      match l.dropWhile (fun x => x != c) with
      | _ :: r => some (l.takeWhile (fun x => x != c), r)
      | [] => none := by
  induction l with
  | nil => rfl
  | cons x xs ih =>
    by_cases h : x = c
    · subst h
      simp [splitAtChar]
    · have hb : (x == c) = false := by simp [h]
      have hs : splitAtChar c (x :: xs) =
          match splitAtChar c xs with
          | some (p, r) => some (x :: p, r)
          | none => none := by
        simp [splitAtChar, hb]
      rw [hs, ih]
      cases hd : xs.dropWhile (fun y => y != c) <;> simp [List.dropWhile_cons,
        List.takeWhile_cons, hb, hd, h]

/-- The single regex match attempt agrees with the spec-style single match
(amended token grammar). -/
theorem matchPairSrc_eq_spec (l : List Char) : matchPairSrc l = matchPairSpec l := by
  cases l with
  | nil => rfl
  | cons c rest =>
    by_cases hc : (c == '(') = true
    · simp only [matchPairSrc, matchPairSpec, hc, if_true, splitAtChar_eq_dropWhile]
      cases hd : rest.dropWhile (fun x => x != ',') with
      | nil => simp
      | cons d r2 =>
        have hd1 : (d == ',') = true := by
          simpa using dropWhile_head_not (fun x => x != ',') rest d r2 hd
        simp only [hd1, if_true]
        by_cases h1 : (rest.takeWhile (fun x => x != ',')).isEmpty
        · simp [h1]
        · simp only [h1, Bool.false_eq_true, if_false]
          cases hd2 : r2.dropWhile (fun x => x != ')') with
          | nil => simp
          | cons d2 r3 =>
            have hd21 : (d2 == ')') = true := by
              simpa using dropWhile_head_not (fun x => x != ')') r2 d2 r3 hd2
            simp [hd21]
    · simp [matchPairSrc, matchPairSpec, hc]

/-- The source regex scan agrees with the spec-style scan. -/
theorem scanPairsFuel_eq_specScanFuel :
    ∀ (fuel : Nat) (l : List Char), scanPairsFuel fuel l = specScanFuel fuel l := by
  intro fuel
  induction fuel with
  | zero => intro l; simp [scanPairsFuel, specScanFuel]
  | succ f ih =>
    intro l
    cases l with
    | nil => simp [scanPairsFuel, specScanFuel]
    | cons c rest =>
      rw [scanPairsFuel, specScanFuel, matchPairSrc_eq_spec]
      cases hm : matchPairSpec (c :: rest) with
      | none => simp [ih]
      | some pr =>
        cases pr with
        | mk p r3 => simp [ih]

/-- Claim C2, amended: the parser's matched pairs are the left-to-right
non-overlapping matches in which `token1` is the (trimmed) non-empty run of
non-comma characters ending at the first comma and `token2` the (trimmed)
non-empty run of non-close-parenthesis characters ending at the first close
parenthesis after that comma. -/
theorem C2_pairs_amended (s : String) : scanPairs s = specScanPairs s :=
  scanPairsFuel_eq_specScanFuel s.data.length s.data

/-- C2 as stated is false: on the input "(a,b,c)" the parser matches the pair
("a", "b,c"), whose second token contains a comma, while the claimed grammar
(both tokens free of commas and close parentheses) matches nothing. -/
theorem C2_counterexample :
    scanPairs "(a,b,c)" ≠ claimC2Pairs "(a,b,c)" ∧
    scanPairs "(a,b,c)" = [("a", "b,c")] ∧
    claimC2Pairs "(a,b,c)" = [] ∧
    (parseGraphInput "(a,b,c)").edges =
      [{ source := "a", target := "b,c", etype := "emptyEdge" }] := by
  refine ⟨by decide, by decide, by decide, by decide⟩

/-- Folding the two-element inserts over the pairs equals folding single
inserts over the flattened token stream. -/
theorem foldl_insert_pairs (pairs : List (String × String)) :
    ∀ acc, pairs.foldl (fun acc p => insertNode (insertNode acc p.1) p.2) acc
      = (tokensOf pairs).foldl insertNode acc := by
  induction pairs with
  | nil => intro acc; rfl
  | cons p ps ih =>
    intro acc
    have ht : tokensOf (p :: ps) = p.1 :: p.2 :: tokensOf ps := rfl
    rw [ht, List.foldl_cons, List.foldl_cons, List.foldl_cons, ih]

/-- Membership in a JS-`Set` insert. -/
theorem mem_insertNode (acc : List String) (t x : String) :
    x ∈ insertNode acc t ↔ x ∈ acc ∨ x = t := by
  unfold insertNode
  by_cases h : t ∈ acc
  · rw [if_pos h]
    constructor
    · exact Or.inl
    · rintro (hx | rfl)
      · exact hx
      · exact h
  · rw [if_neg h]
    simp

/-- Membership in the node-name accumulator of `parseGraphInput`. -/
theorem mem_foldl_insert2 (pairs : List (String × String)) :
    ∀ (acc : List String) (x : String),
      x ∈ pairs.foldl (fun acc p => insertNode (insertNode acc p.1) p.2) acc ↔
        x ∈ acc ∨ ∃ p ∈ pairs, x = p.1 ∨ x = p.2 := by
  induction pairs with
  | nil => simp
  | cons p ps ih =>
    intro acc x
    rw [List.foldl_cons, ih]
    simp only [mem_insertNode, List.mem_cons]
    constructor
    · rintro (((hx | h1) | h2) | ⟨q, hq, hx⟩)
      · exact Or.inl hx
      · exact Or.inr ⟨p, Or.inl rfl, Or.inl h1⟩
      · exact Or.inr ⟨p, Or.inl rfl, Or.inr h2⟩
      · exact Or.inr ⟨q, Or.inr hq, hx⟩
    · rintro (hx | ⟨q, hq | hq, hx⟩)
      · exact Or.inl (Or.inl (Or.inl hx))
      · subst hq
        rcases hx with h1 | h2
        · exact Or.inl (Or.inl (Or.inr h1))
        · exact Or.inl (Or.inr h2)
      · exact Or.inr ⟨q, hq, hx⟩

/-- `buildNodes` preserves length. -/
theorem buildNodes_length : ∀ (l : List String) (k : Nat),
    (buildNodes k l).length = l.length := by
  intro l
  induction l with
  | nil => intro k; rfl
  | cons t ts ih => intro k; simp [buildNodes, ih]

/-- Every listed name has a node with that id. -/
theorem exists_node_of_mem : ∀ (l : List String) (k : Nat) (name : String),
    name ∈ l → ∃ n ∈ buildNodes k l, n.id = name := by
  intro l
  induction l with
  | nil => intro k name h; simp at h
  | cons t ts ih =>
    intro k name h
    rcases List.mem_cons.mp h with rfl | h
    · exact ⟨mkNode k name, List.mem_cons_self _ _, rfl⟩
    · obtain ⟨n, hn, hid⟩ := ih (k + 1) name h
      exact ⟨n, List.mem_cons_of_mem _ hn, hid⟩

/-- Every node's id is a listed name. -/
theorem id_mem_of_mem_buildNodes : ∀ (l : List String) (k : Nat) (n : GraphNode),
    n ∈ buildNodes k l → n.id ∈ l := by
  intro l
  induction l with
  | nil => intro k n h; simp [buildNodes] at h
  | cons t ts ih =>
    intro k n h
    rcases List.mem_cons.mp h with rfl | h
    · exact List.mem_cons_self _ _
    · exact List.mem_cons_of_mem _ (ih (k + 1) n h)

/-- The grid-layout coordinates of the node at position `i`. -/
theorem buildNodes_coords : ∀ (l : List String) (k i : Nat)
    (h : i < (buildNodes k l).length),
    ((buildNodes k l).get ⟨i, h⟩).x = ((k + i) % 5) * 200 + 100 ∧
    ((buildNodes k l).get ⟨i, h⟩).y = ((k + i) / 5) * 150 + 100 := by
  intro l
  induction l with
  | nil => intro k i h; simp [buildNodes] at h
  | cons t ts ih =>
    intro k i h
    cases i with
    | zero => simp [buildNodes, mkNode]
    | succ j =>
      have hj : j < (buildNodes (k + 1) ts).length := by
        have := h
        simpa [buildNodes] using this
      have := ih (k + 1) j hj
      have hk : k + 1 + j = k + (j + 1) := by omega
      simpa [buildNodes, hk] using this

/-- C3: the node list is the first-seen-order deduplication of the pair
tokens; node `i` sits at `x = (i mod 5) * 200 + 100`,
`y = (i div 5) * 150 + 100`; and the round-trip example produces nodes
A, B, C, D at (100,100), (300,100), (500,100), (700,100) with the edge list
[(A,B),(C,D),(C,B),(D,A)] in order. -/
theorem C3_nodes_and_layout (s : String) :
    (parseGraphInput s).nodes = buildNodes 0 (firstSeenDedup (tokensOf (scanPairs s))) ∧
    (∀ (i : Nat) (h : i < (parseGraphInput s).nodes.length),
      ((parseGraphInput s).nodes.get ⟨i, h⟩).x = (i % 5) * 200 + 100 ∧
      ((parseGraphInput s).nodes.get ⟨i, h⟩).y = (i / 5) * 150 + 100) ∧
    (parseGraphInput "[(A,B),(C,D),(C,B),(D,A)]").nodes =
      [{ id := "A", title := "A", ntype := "empty", x := 100, y := 100 },
       { id := "B", title := "B", ntype := "empty", x := 300, y := 100 },
       { id := "C", title := "C", ntype := "empty", x := 500, y := 100 },
       { id := "D", title := "D", ntype := "empty", x := 700, y := 100 }] ∧
    (parseGraphInput "[(A,B),(C,D),(C,B),(D,A)]").edges =
      [{ source := "A", target := "B", etype := "emptyEdge" },
       { source := "C", target := "D", etype := "emptyEdge" },
       { source := "C", target := "B", etype := "emptyEdge" },
       { source := "D", target := "A", etype := "emptyEdge" }] := by
  refine ⟨?_, ?_, by decide, by decide⟩
  · simp only [parseGraphInput, firstSeenDedup, foldl_insert_pairs]
  · intro i h
    have := buildNodes_coords
      ((scanPairs s).foldl (fun acc p => insertNode (insertNode acc p.1) p.2) []) 0 i
    simp only [parseGraphInput] at h ⊢
    simpa using this h

/-- C3 witness: instance of the coordinate clause at input
"[(A,B),(C,D),(C,B),(D,A)]" and index 1. -/
theorem C3_witness :
    ((parseGraphInput "[(A,B),(C,D),(C,B),(D,A)]").nodes.get ⟨1, by decide⟩).x
      = (1 % 5) * 200 + 100 :=
  ((C3_nodes_and_layout "[(A,B),(C,D),(C,B),(D,A)]").2.1 1 (by decide)).1

/-- C9: the parser output is closed (edge endpoints are node ids) and
covering (every node id occurs in some edge); no matched pairs yields empty
node and edge lists. -/
theorem C9_closed_covering (s : String) :
    (∀ e ∈ (parseGraphInput s).edges,
      (∃ n ∈ (parseGraphInput s).nodes, n.id = e.source) ∧
      (∃ n ∈ (parseGraphInput s).nodes, n.id = e.target)) ∧
    (∀ n ∈ (parseGraphInput s).nodes,
      ∃ e ∈ (parseGraphInput s).edges, n.id = e.source ∨ n.id = e.target) ∧
    (scanPairs s = [] → (parseGraphInput s).nodes = [] ∧ (parseGraphInput s).edges = []) := by
  refine ⟨?_, ?_, ?_⟩
  · intro e he
    simp only [parseGraphInput, List.mem_map] at he
    obtain ⟨p, hp, rfl⟩ := he
    constructor
    · have h1 : p.1 ∈ (scanPairs s).foldl
          (fun acc p => insertNode (insertNode acc p.1) p.2) [] :=
        (mem_foldl_insert2 _ _ _).mpr (Or.inr ⟨p, hp, Or.inl rfl⟩)
      obtain ⟨n, hn, hid⟩ := exists_node_of_mem _ 0 p.1 h1
      exact ⟨n, by simpa [parseGraphInput] using hn, hid⟩
    · have h2 : p.2 ∈ (scanPairs s).foldl
          (fun acc p => insertNode (insertNode acc p.1) p.2) [] :=
        (mem_foldl_insert2 _ _ _).mpr (Or.inr ⟨p, hp, Or.inr rfl⟩)
      obtain ⟨n, hn, hid⟩ := exists_node_of_mem _ 0 p.2 h2
      exact ⟨n, by simpa [parseGraphInput] using hn, hid⟩
  · intro n hn
    simp only [parseGraphInput] at hn
    have hid := id_mem_of_mem_buildNodes _ 0 n hn
    have := (mem_foldl_insert2 (scanPairs s) [] n.id).mp hid
    rcases this with h | ⟨p, hp, hx⟩
    · simp at h
    · refine ⟨{ source := p.1, target := p.2, etype := "emptyEdge" }, ?_, ?_⟩
      · simp only [parseGraphInput, List.mem_map]
        exact ⟨p, hp, rfl⟩
      · simpa using hx
  · intro hempty
    simp [parseGraphInput, hempty, buildNodes]

/-- C9 witness: closure instance on the input "[(A,B)]": the edge (A,B) has a
node with id "A". -/
theorem C9_witness : ∃ n ∈ (parseGraphInput "[(A,B)]").nodes, n.id = "A" :=
  (((C9_closed_covering "[(A,B)]").1
    { source := "A", target := "B", etype := "emptyEdge" } (by decide)).1)

/-- `String.append` acts as append on the underlying character lists. -/
theorem data_append (a b : String) : (a ++ b).data = a.data ++ b.data := by
  cases a; cases b; rfl

/-- Strings with distinct concrete head characters differ, whatever follows
either of them. -/
theorem append_ne_of_head_ne (a b x y : String) (ca cb : Char)
    (hca : a.data.head? = some ca) (hcb : b.data.head? = some cb)
    (hne : ca ≠ cb) : a ++ x ≠ b ++ y := by
  intro hEq
  apply hne
  have h1 : (a ++ x).data.head? = some ca := by
    rw [data_append]
    cases ha : a.data with
    | nil => rw [ha] at hca; simp at hca
    | cons c t =>
      rw [ha] at hca
      simp only [List.head?_cons, Option.some.injEq] at hca
      simp [hca]
  have h2 : (b ++ y).data.head? = some cb := by
    rw [data_append]
    cases hb : b.data with
    | nil => rw [hb] at hcb; simp at hcb
    | cons c t =>
      rw [hb] at hcb
      simp only [List.head?_cons, Option.some.injEq] at hcb
      simp [hcb]
  rw [hEq] at h1
  exact Option.some.inj (h1.symm.trans h2)

/-- C6: the orchestrator is a total state transformer (no exception reaches
the caller); an exception escaping the body — a throw from the unguarded
classification call — yields exactly one error log entry via the outer
catch; and in every started lookup the in-progress flag is false in the
final state, set by the `finally`. -/
theorem C6_no_propagation_and_finally (env : Env) (name : String) (s : AppState)
    (h0 : name ≠ "") :
    (doLookup env name s).loading = false ∧
    (∀ e, env.isAddress = .error e →
      (doLookupTr env name s).1.logs =
        { level := Level.error, text := "Lookup failed: " ++ e } ::
          { level := Level.info, text := "Resolving ENS name: " ++ name } :: s.logs) := by
  constructor
  · simp [doLookup, doLookupTr, h0]
  · intro e he
    simp [doLookupTr, h0, doLookupRun, he, addLog]

/-- C6 witness: the fixture whose classification call throws. -/
theorem C6_witness : (doLookup testEnvThrow "x" initState).loading = false :=
  (C6_no_propagation_and_finally testEnvThrow "x" initState (by decide)).1

/-- C1: when classification fails and name resolution yields no address, the
lookup short-circuits: Profile is cleared, the terminal log line of the
lookup is the single error entry "No address available for {input}", and no
balance, diagnostic, reverse-lookup, resolver or transaction-history calls
are made (the call trace is exactly classification plus namehash). -/
theorem C1_short_circuit (env : Env) (name : String) (s : AppState)
    (h0 : name ≠ "")
    (h1 : env.isAddress = .ok false)
    (h2 : env.resolveName = .ok none ∨ ∃ e, env.resolveName = .error e) :
    (doLookupTr env name s).1.profile = none ∧
    (doLookupTr env name s).2 =
      [ExtCall.isAddressCall, ExtCall.resolveNameCall, ExtCall.namehashCall] ∧
    ∃ mid, (doLookupTr env name s).1.logs =
        { level := Level.error, text := "No address available for " ++ name } ::
          (mid ++ { level := Level.info, text := "Resolving ENS name: " ++ name } :: s.logs) ∧
      ∀ l ∈ mid, l.text ≠ "No address available for " ++ name := by
  rcases h2 with h2 | ⟨e, h2⟩
  · cases hn : env.namehash with
    | ok nh =>
      refine ⟨by simp [doLookupTr, h0, doLookupRun, h1, classifyInput, h2, stepNamehash, hn,
          shortCircuit, addLog],
        by simp [doLookupTr, h0, doLookupRun, h1, classifyInput, h2, stepNamehash, hn],
        ⟨[{ level := Level.info, text := "namehash: " ++ nh },
          { level := Level.info, text := "Resolved address: " ++ jsString none }], ?_, ?_⟩⟩
      · simp [doLookupTr, h0, doLookupRun, h1, classifyInput, h2, stepNamehash, hn,
          shortCircuit, addLog]
      · intro l hl
        simp only [List.mem_cons, List.not_mem_nil, or_false] at hl
        rcases hl with rfl | rfl
        · exact append_ne_of_head_ne "namehash: " "No address available for " nh name
            'n' 'N' rfl rfl (by decide)
        · exact append_ne_of_head_ne "Resolved address: " "No address available for "
            (jsString none) name 'R' 'N' rfl rfl (by decide)
    | error err =>
      refine ⟨by simp [doLookupTr, h0, doLookupRun, h1, classifyInput, h2, stepNamehash, hn,
          shortCircuit, addLog],
        by simp [doLookupTr, h0, doLookupRun, h1, classifyInput, h2, stepNamehash, hn],
        ⟨[{ level := Level.info, text := "Resolved address: " ++ jsString none }], ?_, ?_⟩⟩
      · simp [doLookupTr, h0, doLookupRun, h1, classifyInput, h2, stepNamehash, hn,
          shortCircuit, addLog]
      · intro l hl
        simp only [List.mem_cons, List.not_mem_nil, or_false] at hl
        rcases hl with rfl
        exact append_ne_of_head_ne "Resolved address: " "No address available for "
          (jsString none) name 'R' 'N' rfl rfl (by decide)
  · cases hn : env.namehash with
    | ok nh =>
      refine ⟨by simp [doLookupTr, h0, doLookupRun, h1, classifyInput, h2, stepNamehash, hn,
          shortCircuit, addLog],
        by simp [doLookupTr, h0, doLookupRun, h1, classifyInput, h2, stepNamehash, hn],
        ⟨[{ level := Level.info, text := "namehash: " ++ nh },
          { level := Level.error, text := "resolveName failed: " ++ e }], ?_, ?_⟩⟩
      · simp [doLookupTr, h0, doLookupRun, h1, classifyInput, h2, stepNamehash, hn,
          shortCircuit, addLog]
      · intro l hl
        simp only [List.mem_cons, List.not_mem_nil, or_false] at hl
        rcases hl with rfl | rfl
        · exact append_ne_of_head_ne "namehash: " "No address available for " nh name
            'n' 'N' rfl rfl (by decide)
        · exact append_ne_of_head_ne "resolveName failed: " "No address available for "
            e name 'r' 'N' rfl rfl (by decide)
    | error err =>
      refine ⟨by simp [doLookupTr, h0, doLookupRun, h1, classifyInput, h2, stepNamehash, hn,
          shortCircuit, addLog],
        by simp [doLookupTr, h0, doLookupRun, h1, classifyInput, h2, stepNamehash, hn],
        ⟨[{ level := Level.error, text := "resolveName failed: " ++ e }], ?_, ?_⟩⟩
      · simp [doLookupTr, h0, doLookupRun, h1, classifyInput, h2, stepNamehash, hn,
          shortCircuit, addLog]
      · intro l hl
        simp only [List.mem_cons, List.not_mem_nil, or_false] at hl
        rcases hl with rfl
        exact append_ne_of_head_ne "resolveName failed: " "No address available for "
          e name 'r' 'N' rfl rfl (by decide)

/-- C1 witness: a name that resolves to no address. -/
theorem C1_witness : (doLookupTr testEnvNoAddr "nosuch.eth" initState).1.profile = none :=
  (C1_short_circuit testEnvNoAddr "nosuch.eth" initState (by decide) rfl (Or.inl rfl)).1

/-- C10: the clears of Profile and the Transaction list happen before any
external call (they are already in effect if the very first external call
throws), so a short-circuited lookup leaves the Transaction list empty even
though the short-circuit step itself only clears Profile. -/
theorem C10_initial_clears (env : Env) (name : String) (s : AppState)
    (h0 : name ≠ "") :
    (∀ e, env.isAddress = .error e →
      (doLookupTr env name s).1.transactions = [] ∧
      (doLookupTr env name s).1.profile = none) ∧
    (env.isAddress = .ok false →
      (env.resolveName = .ok none ∨ (∃ e, env.resolveName = .error e) ∨
        env.resolveName = .ok (some "")) →
      (doLookupTr env name s).1.transactions = [] ∧
      (doLookupTr env name s).1.profile = none) := by
  constructor
  · intro e he
    constructor <;> simp [doLookupTr, h0, doLookupRun, he, addLog]
  · intro hia hres
    rcases hres with h | ⟨e, h⟩ | h <;>
      cases hn : env.namehash <;>
        constructor <;>
          simp [doLookupTr, h0, doLookupRun, hia, classifyInput, h, stepNamehash, hn,
            shortCircuit, addLog]

/-- C10 witness: a short-circuited lookup starting from a state that still
holds a previous lookup's transactions ends with an empty transaction list. -/
theorem C10_witness : (doLookupTr testEnvNoAddr "nosuch.eth" dirtyState).1.transactions = [] :=
  ((C10_initial_clears testEnvNoAddr "nosuch.eth" dirtyState (by decide)).2 rfl (Or.inl rfl)).1

/-- On a non-empty address-classified input, the lookup runs the full
resolved pipeline from `preResolved` and then clears the in-progress flag. -/
theorem doLookupTr_addr (env : Env) (name : String) (s : AppState)
    (h0 : name ≠ "") (h1 : env.isAddress = .ok true) :
    doLookupTr env name s =
      ({ (runResolved env name name (preResolved env name s)).1 with loading := false },
        ExtCall.isAddressCall :: ExtCall.namehashCall ::
          (runResolved env name name (preResolved env name s)).2) := by
  simp [doLookupTr, h0, doLookupRun, h1, classifyInput, preResolved]

/-- Call trace of the balance step. -/
theorem stepBalance_calls (env : Env) (addr : String) (st : AppState) :
    (stepBalance env addr st).2 = [ExtCall.getBalanceCall] := by
  cases h : env.getBalance <;> simp [stepBalance, h]

/-- Call trace of the bytecode step. -/
theorem stepCode_calls (env : Env) (st : AppState) :
    (stepCode env st).2 = [ExtCall.getCodeCall] := by
  cases h : env.getCode <;> simp [stepCode, h]

/-- Call trace of the transaction-count step. -/
theorem stepTxCount_calls (env : Env) (st : AppState) :
    (stepTxCount env st).2 = [ExtCall.getTransactionCountCall] := by
  cases h : env.getTransactionCount <;> simp [stepTxCount, h]

/-- Call trace of the reverse-lookup step. -/
theorem stepReverse_calls (env : Env) (st : AppState) :
    (stepReverse env st).2 = [ExtCall.lookupAddressCall] := by
  cases h : env.lookupAddress <;> simp [stepReverse, h]

/-- Call trace of the name text-record step. -/
theorem stepTextName_calls (r : Resolver) (st : AppState) :
    (stepTextName r st).2 = [ExtCall.getTextCall "name"] := by
  cases h : r.getText "name" <;> simp [stepTextName, h]

/-- Call trace of the url text-record step. -/
theorem stepTextUrl_calls (r : Resolver) (st : AppState) :
    (stepTextUrl r st).2 = [ExtCall.getTextCall "url"] := by
  cases h : r.getText "url" <;> simp [stepTextUrl, h]

/-- Call trace of the avatar text-record step. -/
theorem stepTextAvatar_calls (r : Resolver) (st : AppState) :
    (stepTextAvatar r st).2 = [ExtCall.getTextCall "avatar"] := by
  cases h : r.getText "avatar" <;> simp [stepTextAvatar, h]

/-- Call trace of the description text-record step. -/
theorem stepTextDesc_calls (r : Resolver) (st : AppState) :
    (stepTextDesc r st).2 = [ExtCall.getTextCall "description"] := by
  cases h : r.getText "description" <;> simp [stepTextDesc, h]

/-- The content-hash step never calls name resolution. -/
theorem nrn_stepContentHash (r : Resolver) :
    ∀ st, ExtCall.resolveNameCall ∉ (stepContentHash r st).2 := by
  intro st
  by_cases hh : r.hasGetContentHash
  · cases h : r.getContentHash <;> simp [stepContentHash, hh, h]
  · simp [stepContentHash, hh]

/-- The resolver-address step never calls name resolution. -/
theorem nrn_stepResolverAddr (r : Resolver) :
    ∀ st, ExtCall.resolveNameCall ∉ (stepResolverAddr r st).2 := by
  intro st
  by_cases h1 : r.hasGetAddress
  · cases h : r.getAddressNoArg <;> simp [stepResolverAddr, h1, h]
  · by_cases h2 : r.hasAddr
    · cases h : r.addr <;> simp [stepResolverAddr, h1, h2, h]
    · simp [stepResolverAddr, h1, h2]

/-- A coin-loop iteration never calls name resolution. -/
theorem nrn_coinStep (r : Resolver) (coin : Nat) :
    ∀ st, ExtCall.resolveNameCall ∉ (coinStep r coin st).2 := by
  intro st
  by_cases h1 : r.hasGetAddress
  · cases h : r.getAddressCoin coin <;> simp [coinStep, h1, h]
  · simp [coinStep, h1]

/-- Composing steps that never call name resolution never calls it. -/
theorem nrn_seqStep {f g : AppState → AppState × List ExtCall}
    (hf : ∀ st, ExtCall.resolveNameCall ∉ (f st).2)
    (hg : ∀ st, ExtCall.resolveNameCall ∉ (g st).2) :
    ∀ st, ExtCall.resolveNameCall ∉ (seqStep f g st).2 := by
  intro st
  simp only [seqStep, List.mem_append]
  rintro (h | h)
  · exact hf st h
  · exact hg _ h

/-- The coin loop never calls name resolution. -/
theorem nrn_stepCoinLoop (r : Resolver) :
    ∀ st, ExtCall.resolveNameCall ∉ (stepCoinLoop r st).2 := by
  unfold stepCoinLoop
  exact nrn_seqStep (nrn_coinStep r 60) (nrn_coinStep r 61)

/-- The resolver-dependent block never calls name resolution. -/
theorem nrn_resolverSteps (r : Resolver) :
    ∀ st, ExtCall.resolveNameCall ∉ (resolverSteps r st).2 := by
  unfold resolverSteps
  exact nrn_seqStep (nrn_stepContentHash r)
    (nrn_seqStep (fun st => by simp [stepTextName_calls])
      (nrn_seqStep (fun st => by simp [stepTextUrl_calls])
        (nrn_seqStep (fun st => by simp [stepTextAvatar_calls])
          (nrn_seqStep (fun st => by simp [stepTextDesc_calls])
            (nrn_seqStep (nrn_stepResolverAddr r) (nrn_stepCoinLoop r))))))

/-- The resolver phase never calls name resolution. -/
theorem nrn_stepResolverPhase (env : Env) (name : String) :
    ∀ st, ExtCall.resolveNameCall ∉ (stepResolverPhase env name st).2 := by
  intro st
  cases hr : env.getResolver with
  | error e => simp [stepResolverPhase, hr]
  | ok ro =>
    cases ro with
    | none => simp [stepResolverPhase, hr]
    | some r =>
      simp only [stepResolverPhase, hr]
      intro hmem
      simp only [List.mem_cons] at hmem
      rcases hmem with h | h
      · simp at h
      · exact nrn_resolverSteps r _ h

/-- The transaction-history step never calls name resolution. -/
theorem nrn_stepFetchTx (env : Env) (addr : String) :
    ∀ st, ExtCall.resolveNameCall ∉ (stepFetchTx env addr st).2 := by
  intro st
  by_cases hb : (addr != "")
  · cases hf : env.fetchTx with
    | error e => simp [stepFetchTx, hb, hf]
    | ok data =>
      by_cases hs : (data.status == "1")
      · cases hr : data.result <;> simp [stepFetchTx, hb, hf, hs, hr]
      · simp [stepFetchTx, hb, hf, hs]
  · simp [stepFetchTx, hb]

/-- The whole resolved pipeline never calls name resolution. -/
theorem nrn_runResolved (env : Env) (name addr : String) :
    ∀ st, ExtCall.resolveNameCall ∉ (runResolved env name addr st).2 := by
  unfold runResolved
  exact nrn_seqStep (fun st => by simp [stepBalance_calls])
    (nrn_seqStep (fun st => by simp [stepCode_calls])
      (nrn_seqStep (fun st => by simp [stepTxCount_calls])
        (nrn_seqStep (fun st => by simp [stepReverse_calls])
          (nrn_seqStep (nrn_stepResolverPhase env name) (nrn_stepFetchTx env addr)))))

/-- Logs are append-only across the balance step. -/
theorem logs_suffix_stepBalance (env : Env) (addr : String) :
    ∀ st, st.logs <:+ (stepBalance env addr st).1.logs := by
  intro st
  cases h : env.getBalance <;>
    · simp only [stepBalance, h, mergeProfile, addLog]
      exact List.suffix_cons _ _

/-- Logs are append-only across the bytecode step. -/
theorem logs_suffix_stepCode (env : Env) :
    ∀ st, st.logs <:+ (stepCode env st).1.logs := by
  intro st
  cases h : env.getCode <;>
    · simp only [stepCode, h, addLog]
      exact List.suffix_cons _ _

/-- Logs are append-only across the transaction-count step. -/
theorem logs_suffix_stepTxCount (env : Env) :
    ∀ st, st.logs <:+ (stepTxCount env st).1.logs := by
  intro st
  cases h : env.getTransactionCount <;>
    · simp only [stepTxCount, h, addLog]
      exact List.suffix_cons _ _

/-- Logs are append-only across the reverse-lookup step. -/
theorem logs_suffix_stepReverse (env : Env) :
    ∀ st, st.logs <:+ (stepReverse env st).1.logs := by
  intro st
  cases h : env.lookupAddress with
  | ok rev =>
    have hlogs : (stepReverse env st).1.logs =
        { level := Level.info, text := "reverse name: " ++ jsString rev } :: st.logs := by
      by_cases ht : jsTruthy rev <;> simp [stepReverse, h, ht, mergeProfile, addLog]
    rw [hlogs]
    exact List.suffix_cons _ _
  | error e =>
    simp only [stepReverse, h, addLog]
    exact List.suffix_cons _ _

/-- Logs are append-only across the content-hash step. -/
theorem logs_suffix_stepContentHash (r : Resolver) :
    ∀ st, st.logs <:+ (stepContentHash r st).1.logs := by
  intro st
  by_cases hh : r.hasGetContentHash
  · cases h : r.getContentHash <;>
      · simp only [stepContentHash, hh, h, addLog, if_true]
        exact List.suffix_cons _ _
  · simp only [stepContentHash, hh, addLog, if_false, Bool.false_eq_true]
    exact List.suffix_cons _ _

/-- Logs are append-only across the name text step. -/
theorem logs_suffix_stepTextName (r : Resolver) :
    ∀ st, st.logs <:+ (stepTextName r st).1.logs := by
  intro st
  cases h : r.getText "name" with
  | ok v =>
    by_cases ht : jsTruthy v
    · simp only [stepTextName, h, ht, mergeProfile, addLog, if_true]
      exact List.suffix_cons _ _
    · simp [stepTextName, h, ht]
  | error e => simp [stepTextName, h]

/-- Logs are append-only across the url text step. -/
theorem logs_suffix_stepTextUrl (r : Resolver) :
    ∀ st, st.logs <:+ (stepTextUrl r st).1.logs := by
  intro st
  cases h : r.getText "url" with
  | ok v =>
    by_cases ht : jsTruthy v
    · simp only [stepTextUrl, h, ht, mergeProfile, addLog, if_true]
      exact List.suffix_cons _ _
    · simp [stepTextUrl, h, ht]
  | error e => simp [stepTextUrl, h]

/-- Logs are append-only across the avatar text step. -/
theorem logs_suffix_stepTextAvatar (r : Resolver) :
    ∀ st, st.logs <:+ (stepTextAvatar r st).1.logs := by
  intro st
  cases h : r.getText "avatar" with
  | ok v =>
    by_cases ht : jsTruthy v
    · simp only [stepTextAvatar, h, ht, mergeProfile, addLog, if_true]
      exact List.suffix_cons _ _
    · simp [stepTextAvatar, h, ht]
  | error e => simp [stepTextAvatar, h]

/-- Logs are append-only across the description text step. -/
theorem logs_suffix_stepTextDesc (r : Resolver) :
    ∀ st, st.logs <:+ (stepTextDesc r st).1.logs := by
  intro st
  cases h : r.getText "description" with
  | ok v =>
    by_cases ht : jsTruthy v
    · simp only [stepTextDesc, h, ht, mergeProfile, addLog, if_true]
      exact List.suffix_cons _ _
    · simp [stepTextDesc, h, ht]
  | error e => simp [stepTextDesc, h]

/-- Logs are append-only across the resolver-address step. -/
theorem logs_suffix_stepResolverAddr (r : Resolver) :
    ∀ st, st.logs <:+ (stepResolverAddr r st).1.logs := by
  intro st
  by_cases h1 : r.hasGetAddress
  · cases h : r.getAddressNoArg <;>
      · simp only [stepResolverAddr, h1, h, addLog, if_true]
        exact List.suffix_cons _ _
  · by_cases h2 : r.hasAddr
    · cases h : r.addr <;>
        · simp only [stepResolverAddr, h1, h2, h, addLog, if_true, if_false,
            Bool.false_eq_true]
          exact List.suffix_cons _ _
    · simp only [stepResolverAddr, h1, h2, addLog, if_false, Bool.false_eq_true]
      exact List.suffix_cons _ _

/-- Logs are append-only across a coin-loop iteration. -/
theorem logs_suffix_coinStep (r : Resolver) (coin : Nat) :
    ∀ st, st.logs <:+ (coinStep r coin st).1.logs := by
  intro st
  by_cases h1 : r.hasGetAddress
  · cases h : r.getAddressCoin coin <;>
      · simp only [coinStep, h1, h, addLog, if_true]
        exact List.suffix_cons _ _
  · simp [coinStep, h1]

/-- Logs are append-only across a step composition. -/
theorem logs_suffix_seqStep {f g : AppState → AppState × List ExtCall}
    (hf : ∀ st, st.logs <:+ (f st).1.logs)
    (hg : ∀ st, st.logs <:+ (g st).1.logs) :
    ∀ st, st.logs <:+ (seqStep f g st).1.logs := by
  intro st
  simp only [seqStep]
  exact (hf st).trans (hg (f st).1)

/-- Logs are append-only across the coin loop. -/
theorem logs_suffix_stepCoinLoop (r : Resolver) :
    ∀ st, st.logs <:+ (stepCoinLoop r st).1.logs := by
  unfold stepCoinLoop
  exact logs_suffix_seqStep (logs_suffix_coinStep r 60) (logs_suffix_coinStep r 61)

/-- Logs are append-only across the resolver-dependent block. -/
theorem logs_suffix_resolverSteps (r : Resolver) :
    ∀ st, st.logs <:+ (resolverSteps r st).1.logs := by
  unfold resolverSteps
  exact logs_suffix_seqStep (logs_suffix_stepContentHash r)
    (logs_suffix_seqStep (logs_suffix_stepTextName r)
      (logs_suffix_seqStep (logs_suffix_stepTextUrl r)
        (logs_suffix_seqStep (logs_suffix_stepTextAvatar r)
          (logs_suffix_seqStep (logs_suffix_stepTextDesc r)
            (logs_suffix_seqStep (logs_suffix_stepResolverAddr r)
              (logs_suffix_stepCoinLoop r))))))

/-- Logs are append-only across the resolver phase. -/
theorem logs_suffix_stepResolverPhase (env : Env) (name : String) :
    ∀ st, st.logs <:+ (stepResolverPhase env name st).1.logs := by
  intro st
  cases hr : env.getResolver with
  | error e =>
    simp only [stepResolverPhase, hr, addLog]
    exact List.suffix_cons _ _
  | ok ro =>
    cases ro with
    | none =>
      simp only [stepResolverPhase, hr, addLog]
      exact List.suffix_cons _ _
    | some r =>
      simp only [stepResolverPhase, hr]
      have h1 : st.logs <:+ (mergeProfile (fun p => { p with resolver := r.address })
          (addLog .info ("resolver address: " ++ r.address.getD "unknown") st)).logs := by
        simp only [mergeProfile, addLog]
        exact List.suffix_cons _ _
      exact h1.trans (logs_suffix_resolverSteps r _)

/-- Logs are append-only across the transaction-history step. -/
theorem logs_suffix_stepFetchTx (env : Env) (addr : String) :
    ∀ st, st.logs <:+ (stepFetchTx env addr st).1.logs := by
  intro st
  by_cases hb : (addr != "")
  · cases hf : env.fetchTx with
    | error e =>
      simp only [stepFetchTx, hb, hf, addLog, if_true]
      exact (List.suffix_cons _ _).trans (List.suffix_cons _ _)
    | ok data =>
      by_cases hs : (data.status == "1")
      · cases hr : data.result with
        | some txs =>
          simp only [stepFetchTx, hb, hf, hs, hr, addLog, if_true]
          exact (List.suffix_cons _ _).trans (List.suffix_cons _ _)
        | none =>
          simp only [stepFetchTx, hb, hf, hs, hr, noTxState, addLog, if_true]
          exact (List.suffix_cons _ _).trans (List.suffix_cons _ _)
      · simp only [stepFetchTx, hb, hf, hs, noTxState, addLog, if_true, if_false,
          Bool.false_eq_true]
        exact (List.suffix_cons _ _).trans (List.suffix_cons _ _)
  · simp [stepFetchTx, hb]

/-- Logs are append-only across the whole resolved pipeline. -/
theorem logs_suffix_runResolved (env : Env) (name addr : String) :
    ∀ st, st.logs <:+ (runResolved env name addr st).1.logs := by
  unfold runResolved
  exact logs_suffix_seqStep (logs_suffix_stepBalance env addr)
    (logs_suffix_seqStep (logs_suffix_stepCode env)
      (logs_suffix_seqStep (logs_suffix_stepTxCount env)
        (logs_suffix_seqStep (logs_suffix_stepReverse env)
          (logs_suffix_seqStep (logs_suffix_stepResolverPhase env name)
            (logs_suffix_stepFetchTx env addr)))))

/-- C8: an address-formatted input is classified directly (the "Input is an
address" log line survives to the final state) and the name-resolution RPC is
never invoked during the lookup. -/
theorem C8_address_input_skips_resolution (env : Env) (name : String) (s : AppState)
    (h0 : name ≠ "") (h1 : env.isAddress = .ok true) :
    ExtCall.resolveNameCall ∉ (doLookupTr env name s).2 ∧
    { level := Level.info, text := "Input is an address: " ++ name } ∈
      (doLookupTr env name s).1.logs := by
  rw [doLookupTr_addr env name s h0 h1]
  constructor
  · intro h
    simp only [List.mem_cons] at h
    rcases h with h | h | h
    · simp at h
    · simp at h
    · exact nrn_runResolved env name name _ h
  · have hsuf : (preResolved env name s).logs <:+
        (runResolved env name name (preResolved env name s)).1.logs :=
      logs_suffix_runResolved env name name _
    apply hsuf.subset
    cases hn : env.namehash <;> simp [preResolved, stepNamehash, hn, addLog]

/-- C8 witness: an address-formatted fixture input. -/
theorem C8_witness : ExtCall.resolveNameCall ∉ (doLookupTr testEnv "0xabc" initState).2 :=
  (C8_address_input_skips_resolution testEnv "0xabc" initState (by decide) rfl).1

/-- C4: behaviour of the transaction-history handling on every response
shape, on an address-classified lookup: a status-"1" array response replaces
the transaction list wholesale with the mapped records; a non-"1" status or
non-array result logs informationally and empties the list; a transport
failure logs an error and empties the list. -/
theorem C4_tx_history (env : Env) (name : String) (s : AppState)
    (h0 : name ≠ "") (h1 : env.isAddress = .ok true) :
    (∀ data txs, env.fetchTx = .ok data → data.status = "1" → data.result = some txs →
      (doLookupTr env name s).1.transactions = txs.map mkTransaction ∧
      (doLookupTr env name s).1.logs.head? =
        some ⟨Level.info, "Found " ++ toString (txs.map mkTransaction).length
          ++ " recent transactions"⟩) ∧
    (∀ data, env.fetchTx = .ok data → data.status ≠ "1" ∨ data.result = none →
      (doLookupTr env name s).1.transactions = [] ∧
      (doLookupTr env name s).1.logs.head? =
        some ⟨Level.info, "No transactions found or Etherscan API error: "
          ++ jsOrUnknown data.message⟩) ∧
    (∀ e, env.fetchTx = .error e →
      (doLookupTr env name s).1.transactions = [] ∧
      (doLookupTr env name s).1.logs.head? =
        some ⟨Level.error, "Failed to fetch transaction history: " ++ e⟩) := by
  rw [doLookupTr_addr env name s h0 h1]
  have hbn : (name != "") = true := by simpa using h0
  refine ⟨?_, ?_, ?_⟩
  · intro data txs hf hs hr
    constructor <;>
      simp [runResolved, seqStep, stepFetchTx, hbn, hf, hs, hr, addLog]
  · intro data hf hcase
    rcases hcase with hs | hr
    · have hs' : (data.status == "1") = false := by simpa using hs
      constructor <;>
        simp [runResolved, seqStep, stepFetchTx, hbn, hf, hs', noTxState, addLog]
    · by_cases hs : (data.status == "1")
      · constructor <;>
          simp [runResolved, seqStep, stepFetchTx, hbn, hf, hs, hr, noTxState, addLog]
      · constructor <;>
          simp [runResolved, seqStep, stepFetchTx, hbn, hf, hs, noTxState, addLog]
  · intro e hf
    constructor <;>
      simp [runResolved, seqStep, stepFetchTx, hbn, hf, addLog]

/-- C4 witness: the fixture's empty status-"1" response replaces the
transaction list with the (empty) mapped list. -/
theorem C4_witness :
    (doLookupTr testEnv "0xabc" initState).1.transactions = List.map mkTransaction [] :=
  ((C4_tx_history testEnv "0xabc" initState (by decide) rfl).1
    { status := "1", result := some [], message := none } [] rfl rfl rfl).1

/-- The bytecode step leaves the profile unchanged. -/
theorem profile_stepCode (env : Env) :
    ∀ st, (stepCode env st).1.profile = st.profile := by
  intro st
  cases h : env.getCode <;> simp [stepCode, h, addLog]

/-- The transaction-count step leaves the profile unchanged. -/
theorem profile_stepTxCount (env : Env) :
    ∀ st, (stepTxCount env st).1.profile = st.profile := by
  intro st
  cases h : env.getTransactionCount <;> simp [stepTxCount, h, addLog]

/-- The content-hash step leaves the profile unchanged. -/
theorem profile_stepContentHash (r : Resolver) :
    ∀ st, (stepContentHash r st).1.profile = st.profile := by
  intro st
  by_cases hh : r.hasGetContentHash
  · cases h : r.getContentHash <;> simp [stepContentHash, hh, h, addLog]
  · simp [stepContentHash, hh, addLog]

/-- The resolver-address step leaves the profile unchanged. -/
theorem profile_stepResolverAddr (r : Resolver) :
    ∀ st, (stepResolverAddr r st).1.profile = st.profile := by
  intro st
  by_cases h1 : r.hasGetAddress
  · cases h : r.getAddressNoArg <;> simp [stepResolverAddr, h1, h, addLog]
  · by_cases h2 : r.hasAddr
    · cases h : r.addr <;> simp [stepResolverAddr, h1, h2, h, addLog]
    · simp [stepResolverAddr, h1, h2, addLog]

/-- A coin-loop iteration leaves the profile unchanged. -/
theorem profile_coinStep (r : Resolver) (coin : Nat) :
    ∀ st, (coinStep r coin st).1.profile = st.profile := by
  intro st
  by_cases h1 : r.hasGetAddress
  · cases h : r.getAddressCoin coin <;> simp [coinStep, h1, h, addLog]
  · simp [coinStep, h1]

/-- The coin loop leaves the profile unchanged. -/
theorem profile_stepCoinLoop (r : Resolver) :
    ∀ st, (stepCoinLoop r st).1.profile = st.profile := by
  intro st
  simp [stepCoinLoop, seqStep, profile_coinStep]

/-- The transaction-history step leaves the profile unchanged. -/
theorem profile_stepFetchTx (env : Env) (addr : String) :
    ∀ st, (stepFetchTx env addr st).1.profile = st.profile := by
  intro st
  by_cases hb : (addr != "")
  · cases hf : env.fetchTx with
    | error e => simp [stepFetchTx, hb, hf, addLog]
    | ok data =>
      by_cases hs : (data.status == "1")
      · cases hr : data.result <;> simp [stepFetchTx, hb, hf, hs, hr, noTxState, addLog]
      · simp [stepFetchTx, hb, hf, hs, noTxState, addLog]
  · simp [stepFetchTx, hb]

/-- Equal profiles give equal avatar views. -/
theorem avatarOf_congr {s1 s2 : AppState} (h : s1.profile = s2.profile) :
    avatarOf s1 = avatarOf s2 := by
  simp [avatarOf, h]

/-- Equal profiles give equal description views. -/
theorem descOf_congr {s1 s2 : AppState} (h : s1.profile = s2.profile) :
    descOf s1 = descOf s2 := by
  simp [descOf, h]

/-- The balance step does not touch the avatar field. -/
theorem avatarOf_stepBalance (env : Env) (addr : String) :
    ∀ st, avatarOf (stepBalance env addr st).1 = avatarOf st := by
  intro st
  cases h : env.getBalance <;> simp [stepBalance, h, mergeProfile, addLog, avatarOf]

/-- The bytecode step does not touch the avatar field. -/
theorem avatarOf_stepCode (env : Env) :
    ∀ st, avatarOf (stepCode env st).1 = avatarOf st :=
  fun st => avatarOf_congr (profile_stepCode env st)

/-- The transaction-count step does not touch the avatar field. -/
theorem avatarOf_stepTxCount (env : Env) :
    ∀ st, avatarOf (stepTxCount env st).1 = avatarOf st :=
  fun st => avatarOf_congr (profile_stepTxCount env st)

/-- The reverse-lookup step does not touch the avatar field. -/
theorem avatarOf_stepReverse (env : Env) :
    ∀ st, avatarOf (stepReverse env st).1 = avatarOf st := by
  intro st
  cases h : env.lookupAddress with
  | ok rev =>
    by_cases ht : jsTruthy rev <;>
      simp [stepReverse, h, ht, mergeProfile, addLog, avatarOf]
  | error e => simp [stepReverse, h, addLog, avatarOf]

/-- The content-hash step does not touch the avatar field. -/
theorem avatarOf_stepContentHash (r : Resolver) :
    ∀ st, avatarOf (stepContentHash r st).1 = avatarOf st :=
  fun st => avatarOf_congr (profile_stepContentHash r st)

/-- The name text step does not touch the avatar field. -/
theorem avatarOf_stepTextName (r : Resolver) :
    ∀ st, avatarOf (stepTextName r st).1 = avatarOf st := by
  intro st
  cases h : r.getText "name" with
  | ok v =>
    by_cases ht : jsTruthy v <;>
      simp [stepTextName, h, ht, mergeProfile, addLog, avatarOf]
  | error e => simp [stepTextName, h]

/-- The url text step does not touch the avatar field. -/
theorem avatarOf_stepTextUrl (r : Resolver) :
    ∀ st, avatarOf (stepTextUrl r st).1 = avatarOf st := by
  intro st
  cases h : r.getText "url" with
  | ok v =>
    by_cases ht : jsTruthy v <;>
      simp [stepTextUrl, h, ht, mergeProfile, addLog, avatarOf]
  | error e => simp [stepTextUrl, h]

/-- The description text step does not touch the avatar field. -/
theorem avatarOf_stepTextDesc (r : Resolver) :
    ∀ st, avatarOf (stepTextDesc r st).1 = avatarOf st := by
  intro st
  cases h : r.getText "description" with
  | ok v =>
    by_cases ht : jsTruthy v <;>
      simp [stepTextDesc, h, ht, mergeProfile, addLog, avatarOf]
  | error e => simp [stepTextDesc, h]

/-- The resolver-address step does not touch the avatar field. -/
theorem avatarOf_stepResolverAddr (r : Resolver) :
    ∀ st, avatarOf (stepResolverAddr r st).1 = avatarOf st :=
  fun st => avatarOf_congr (profile_stepResolverAddr r st)

/-- The coin loop does not touch the avatar field. -/
theorem avatarOf_stepCoinLoop (r : Resolver) :
    ∀ st, avatarOf (stepCoinLoop r st).1 = avatarOf st :=
  fun st => avatarOf_congr (profile_stepCoinLoop r st)

/-- The transaction-history step does not touch the avatar field. -/
theorem avatarOf_stepFetchTx (env : Env) (addr : String) :
    ∀ st, avatarOf (stepFetchTx env addr st).1 = avatarOf st :=
  fun st => avatarOf_congr (profile_stepFetchTx env addr st)

/-- The resolver-address step does not touch the description field. -/
theorem descOf_stepResolverAddr (r : Resolver) :
    ∀ st, descOf (stepResolverAddr r st).1 = descOf st :=
  fun st => descOf_congr (profile_stepResolverAddr r st)

/-- The coin loop does not touch the description field. -/
theorem descOf_stepCoinLoop (r : Resolver) :
    ∀ st, descOf (stepCoinLoop r st).1 = descOf st :=
  fun st => descOf_congr (profile_stepCoinLoop r st)

/-- The transaction-history step does not touch the description field. -/
theorem descOf_stepFetchTx (env : Env) (addr : String) :
    ∀ st, descOf (stepFetchTx env addr st).1 = descOf st :=
  fun st => descOf_congr (profile_stepFetchTx env addr st)

/-- A truthy description text record is merged into the profile whatever the
incoming state. -/
theorem descOf_stepTextDesc_set (r : Resolver) (d : String)
    (hd : r.getText "description" = .ok (some d)) (hne : d ≠ "") :
    ∀ st, descOf (stepTextDesc r st).1 = some d := by
  intro st
  have ht : jsTruthy (some d) = true := by simp [jsTruthy, hne]
  simp [stepTextDesc, hd, ht, mergeProfile, addLog, descOf]

/-- A truthy avatar text record is normalized and merged whatever the
incoming state. -/
theorem avatarOf_stepTextAvatar_set (r : Resolver) (v : String)
    (hv : r.getText "avatar" = .ok (some v)) (hne : v ≠ "") :
    ∀ st, avatarOf (stepTextAvatar r st).1 = some (normalizeAvatar v) := by
  intro st
  have ht : jsTruthy (some v) = true := by simp [jsTruthy, hne]
  simp [stepTextAvatar, hv, ht, mergeProfile, addLog, avatarOf, jsString]

/-- A failing or falsy avatar fetch leaves the whole state unchanged: no log
entry, no profile change. -/
theorem stepTextAvatar_silent_id (r : Resolver)
    (hav : silentOutcome (r.getText "avatar") = true) :
    ∀ st, (stepTextAvatar r st).1 = st := by
  intro st
  cases h : r.getText "avatar" with
  | error e => simp [stepTextAvatar, h]
  | ok v =>
    have ht : jsTruthy v = false := by
      have h2 := hav
      rw [h] at h2
      simpa [silentOutcome] using h2
    simp [stepTextAvatar, h, ht]

/-- Through the resolver block, a truthy description record ends up in the
profile. -/
theorem descOf_resolverSteps_set (r : Resolver) (d : String)
    (hd : r.getText "description" = .ok (some d)) (hne : d ≠ "") :
    ∀ st, descOf (resolverSteps r st).1 = some d := by
  intro st
  show descOf (stepCoinLoop r ((stepResolverAddr r ((stepTextDesc r ((stepTextAvatar r
    ((stepTextUrl r ((stepTextName r ((stepContentHash r st).1)).1)).1)).1)).1)).1)).1
    = some d
  rw [descOf_stepCoinLoop, descOf_stepResolverAddr, descOf_stepTextDesc_set r d hd hne]

/-- Through the resolver block, a silently-failing avatar fetch leaves the
avatar view unchanged. -/
theorem avatarOf_resolverSteps_silent (r : Resolver)
    (hav : silentOutcome (r.getText "avatar") = true) :
    ∀ st, avatarOf (resolverSteps r st).1 = avatarOf st := by
  intro st
  show avatarOf (stepCoinLoop r ((stepResolverAddr r ((stepTextDesc r ((stepTextAvatar r
    ((stepTextUrl r ((stepTextName r ((stepContentHash r st).1)).1)).1)).1)).1)).1)).1
    = avatarOf st
  rw [avatarOf_stepCoinLoop, avatarOf_stepResolverAddr, avatarOf_stepTextDesc,
    stepTextAvatar_silent_id r hav, avatarOf_stepTextUrl, avatarOf_stepTextName,
    avatarOf_stepContentHash]

/-- Through the resolver block, a truthy avatar record ends up normalized in
the profile. -/
theorem avatarOf_resolverSteps_set (r : Resolver) (v : String)
    (hv : r.getText "avatar" = .ok (some v)) (hne : v ≠ "") :
    ∀ st, avatarOf (resolverSteps r st).1 = some (normalizeAvatar v) := by
  intro st
  show avatarOf (stepCoinLoop r ((stepResolverAddr r ((stepTextDesc r ((stepTextAvatar r
    ((stepTextUrl r ((stepTextName r ((stepContentHash r st).1)).1)).1)).1)).1)).1)).1
    = some (normalizeAvatar v)
  rw [avatarOf_stepCoinLoop, avatarOf_stepResolverAddr, avatarOf_stepTextDesc,
    avatarOf_stepTextAvatar_set r v hv hne]

/-- Through the resolver phase with a present resolver, a truthy description
record ends up in the profile. -/
theorem descOf_stepResolverPhase_set (env : Env) (name : String) (r : Resolver) (d : String)
    (hr : env.getResolver = .ok (some r))
    (hd : r.getText "description" = .ok (some d)) (hne : d ≠ "") :
    ∀ st, descOf (stepResolverPhase env name st).1 = some d := by
  intro st
  simp only [stepResolverPhase, hr]
  exact descOf_resolverSteps_set r d hd hne _

/-- Through the resolver phase with a present resolver, a silentlyerroring
avatar fetch leaves the avatar view unchanged. -/
theorem avatarOf_stepResolverPhase_silent (env : Env) (name : String) (r : Resolver)
    (hr : env.getResolver = .ok (some r))
    (hav : silentOutcome (r.getText "avatar") = true) :
    ∀ st, avatarOf (stepResolverPhase env name st).1 = avatarOf st := by
  intro st
  simp only [stepResolverPhase, hr]
  rw [avatarOf_resolverSteps_silent r hav]
  simp [mergeProfile, addLog, avatarOf]

/-- Through the resolver phase with a present resolver, a truthy avatar
record ends up normalized in the profile. -/
theorem avatarOf_stepResolverPhase_set (env : Env) (name : String) (r : Resolver) (v : String)
    (hr : env.getResolver = .ok (some r))
    (hv : r.getText "avatar" = .ok (some v)) (hne : v ≠ "") :
    ∀ st, avatarOf (stepResolverPhase env name st).1 = some (normalizeAvatar v) := by
  intro st
  simp only [stepResolverPhase, hr]
  exact avatarOf_resolverSteps_set r v hv hne _

/-- Through the whole resolved pipeline, a truthy description record ends up
in the profile. -/
theorem descOf_runResolved_set (env : Env) (name addr : String) (r : Resolver) (d : String)
    (hr : env.getResolver = .ok (some r))
    (hd : r.getText "description" = .ok (some d)) (hne : d ≠ "") :
    ∀ st, descOf (runResolved env name addr st).1 = some d := by
  intro st
  show descOf (stepFetchTx env addr ((stepResolverPhase env name ((stepReverse env
    ((stepTxCount env ((stepCode env ((stepBalance env addr st).1)).1)).1)).1)).1)).1
    = some d
  rw [descOf_stepFetchTx, descOf_stepResolverPhase_set env name r d hr hd hne]

/-- Through the whole resolved pipeline, a silently-failing avatar fetch
leaves the avatar view unchanged. -/
theorem avatarOf_runResolved_silent (env : Env) (name addr : String) (r : Resolver)
    (hr : env.getResolver = .ok (some r))
    (hav : silentOutcome (r.getText "avatar") = true) :
    ∀ st, avatarOf (runResolved env name addr st).1 = avatarOf st := by
  intro st
  show avatarOf (stepFetchTx env addr ((stepResolverPhase env name ((stepReverse env
    ((stepTxCount env ((stepCode env ((stepBalance env addr st).1)).1)).1)).1)).1)).1
    = avatarOf st
  rw [avatarOf_stepFetchTx, avatarOf_stepResolverPhase_silent env name r hr hav,
    avatarOf_stepReverse, avatarOf_stepTxCount, avatarOf_stepCode, avatarOf_stepBalance]

/-- Through the whole resolved pipeline, a truthy avatar record ends up
normalized in the profile. -/
theorem avatarOf_runResolved_set (env : Env) (name addr : String) (r : Resolver) (v : String)
    (hr : env.getResolver = .ok (some r))
    (hv : r.getText "avatar" = .ok (some v)) (hne : v ≠ "") :
    ∀ st, avatarOf (runResolved env name addr st).1 = some (normalizeAvatar v) := by
  intro st
  show avatarOf (stepFetchTx env addr ((stepResolverPhase env name ((stepReverse env
    ((stepTxCount env ((stepCode env ((stepBalance env addr st).1)).1)).1)).1)).1)).1
    = some (normalizeAvatar v)
  rw [avatarOf_stepFetchTx, avatarOf_stepResolverPhase_set env name r v hr hv hne]

/-- C5: the four text-record fetches are independently fault-isolated: with
the avatar fetch throwing, a truthy description is still fetched (its call
appears in the trace) and merged into the profile; and a failing or falsy
avatar fetch produces no log entry, leaves the state of its own step
untouched, and leaves Profile.avatar unset in the final state. -/
theorem C5_text_record_isolation (env : Env) (name : String) (s : AppState) (r : Resolver)
    (h0 : name ≠ "") (h1 : env.isAddress = .ok true)
    (hr : env.getResolver = .ok (some r)) :
    (∀ ea d, r.getText "avatar" = .error ea →
      r.getText "description" = .ok (some d) → d ≠ "" →
      descOf (doLookupTr env name s).1 = some d ∧
      ExtCall.getTextCall "description" ∈ (doLookupTr env name s).2) ∧
    (silentOutcome (r.getText "avatar") = true →
      avatarOf (doLookupTr env name s).1 = none ∧
      ∀ st, (stepTextAvatar r st).1 = st) := by
  constructor
  · intro ea d hav hd hne
    constructor
    · rw [doLookupTr_addr env name s h0 h1]
      exact descOf_runResolved_set env name name r d hr hd hne _
    · rw [doLookupTr_addr env name s h0 h1]
      apply List.mem_cons_of_mem
      apply List.mem_cons_of_mem
      simp only [runResolved, seqStep, List.mem_append]
      right; right; right; right; left
      simp only [stepResolverPhase, hr]
      apply List.mem_cons_of_mem
      simp [resolverSteps, seqStep, stepTextDesc_calls]
  · intro hav
    constructor
    · rw [doLookupTr_addr env name s h0 h1]
      have h := avatarOf_runResolved_silent env name name r hr hav (preResolved env name s)
      have h2 : avatarOf (preResolved env name s) = none := by
        cases hn : env.namehash <;> simp [preResolved, stepNamehash, hn, addLog, avatarOf]
      exact h.trans h2
    · exact stepTextAvatar_silent_id r hav

/-- C5 witness: the fixture resolver's avatar fetch throws while its
description is fetched and merged. -/
theorem C5_witness : descOf (doLookupTr testEnv "0xabc" initState).1 = some "a description" :=
  (((C5_text_record_isolation testEnv "0xabc" initState testResolver (by decide) rfl rfl).1)
    "avatar fetch failed" "a description" rfl rfl (by decide)).1

/-- C7: a fetched truthy avatar value is normalized — an `ipfs://` prefix is
rewritten to the public gateway prefix, anything else passes through — and
the normalized value is what is merged into Profile.avatar. -/
theorem C7_avatar_normalization (env : Env) (name : String) (s : AppState) (r : Resolver)
    (h0 : name ≠ "") (h1 : env.isAddress = .ok true)
    (hr : env.getResolver = .ok (some r)) :
    (∀ v, r.getText "avatar" = .ok (some v) → v ≠ "" →
      avatarOf (doLookupTr env name s).1 = some (normalizeAvatar v)) ∧
    normalizeAvatar "ipfs://Qm123" = "https://ipfs.io/ipfs/Qm123" ∧
    (∀ u, jsStartsWith u "ipfs://" = false → normalizeAvatar u = u) := by
  refine ⟨?_, by decide, ?_⟩
  · intro v hv hne
    rw [doLookupTr_addr env name s h0 h1]
    exact avatarOf_runResolved_set env name name r v hr hv hne _
  · intro u hu
    simp [normalizeAvatar, hu]

/-- C7 witness: the `ipfs://Qm123` fixture ends up as the gateway URL. -/
theorem C7_witness :
    avatarOf (doLookupTr testEnvAvatar "0xabc" initState).1
      = some (normalizeAvatar "ipfs://Qm123") :=
  (C7_avatar_normalization testEnvAvatar "0xabc" initState testResolverAvatar
    (by decide) rfl rfl).1 "ipfs://Qm123" rfl (by decide)

end EnsPlayground
